import Mathlib

/-!
Shallow embedding of `pkg/asset/manifests/operators.go` (package `manifests`
of the installer repository) together with models of the external
collaborators the file calls into (the `asset` helpers, the YAML codec, the
Go standard library), and proofs of the specification claims about it.

Go byte slices and strings are modelled as Lean `String`; Go `nil`-able
pointers as `Option`; a Go `panic` as a dedicated outcome (`none` for
`applyTemplateData`, `GenOutcome.panicked` for `Generate`).
-/

namespace Installer

/-- `asset.File`: an (output path, byte content) pair. -/
structure GoFile where
  filename : String
  data : String
deriving DecidableEq, Repr

/-- `strings.Repeat(s, count)`: `count` copies of `s` concatenated. -/
def stringsRepeat (s : String) (count : Nat) : String :=
  String.mk ((List.replicate count s.toList).flatten)

/-- `strings.Replace(v, old, new, -1)` specialised to the one-character
pattern the source uses (`old = "\n"`): every occurrence of the character
`old` is replaced by the character list `new`. -/
def replaceChar (old : Char) (new : List Char) : List Char → List Char
  | [] => []
  | c :: rest => (if c = old then new else [c]) ++ replaceChar old new rest

/-- `indent` from the source: replace every newline of `v` by a newline
followed by `indention` spaces (`strings.Replace(v, "\n", newline, -1)`). -/
def indent (indention : Nat) (v : String) : String :=
  let newline := "\n" ++ stringsRepeat " " indention
  String.mk (replaceChar '\n' newline.toList v.toList)

/-- The `add` entry of `customTmplFuncs` in the source: integer addition. -/
def add (i j : Int) : Int := i + j

/-- The base64 standard alphabet, as used by `base64.StdEncoding`. -/
def base64Alphabet : List Char :=
  "ABCDEFGHIJKLMNOPQRSTUVWXYZabcdefghijklmnopqrstuvwxyz0123456789+/".toList

/-- The base64 digit for a 6-bit value. -/
def b64char (n : Nat) : Char := base64Alphabet.getD n 'A'

/-- Standard base64 of a byte list, three bytes to four digits, `=`-padded. -/
def base64Chunks : List Nat → List Char
  | [] => []
  | [a] => [b64char (a / 4), b64char (a % 4 * 16), '=', '=']
  | [a, b] => [b64char (a / 4), b64char (a % 4 * 16 + b / 16), b64char (b % 16 * 4), '=']
  | a :: b :: c :: rest =>
    b64char (a / 4) :: b64char (a % 4 * 16 + b / 16) ::
      b64char (b % 16 * 4 + c / 64) :: b64char (c % 64) :: base64Chunks rest

/-- `base64.StdEncoding.EncodeToString` on the bytes of `s` (modelled over
the character codes of the Lean string standing for the Go byte slice). -/
def base64Encode (s : String) : String :=
  String.mk (base64Chunks (s.toList.map Char.toNat))

/-! ### The template engine

Model of the subset of Go `text/template` the manifests use: literal text
and `\x7b\x7b .Field \x7d\x7d` actions.  An unterminated action is a parse
error; executing a reference to a field absent from the context is an
execution error — matching `text/template` over a struct context. -/

/-- A parsed template node: literal text or a field reference. -/
inductive TmplNode where
  | lit (s : List Char)
  | fieldRef (nm : String)
deriving DecidableEq, Repr

/-- Scan to the closing `\x7d\x7d` of an action; `none` if it never comes. -/
def takeAction : List Char → Option (List Char × List Char)
  | [] => none
  | '}' :: '}' :: rest => some ([], rest)
  | c :: rest => (takeAction rest).map (fun p => (c :: p.1, p.2))

/-- Parse the inside of an action: optional spaces, a dot, a field name. -/
def parseFieldName (inside : List Char) : Option String :=
  match inside.dropWhile (· = ' ') with
  | '.' :: nameChars =>
    let nm := nameChars.takeWhile (· ≠ ' ')
    if ((nameChars.dropWhile (· ≠ ' ')).all (· = ' ')) ∧ nm ≠ [] then
      some (String.mk nm)
    else none
  | _ => none

/-- Fuel-driven template parser: literal text up to `\x7b\x7b`, then an
action, then the rest.  The fuel is an upper bound on the input length. -/
def parseTmplAux : Nat → List Char → List Char → Except String (List TmplNode)
  | 0, _, _ => .error "template: fuel exhausted"
  | Nat.succ fuel, acc, s =>
    match s with
    | [] => .ok [TmplNode.lit acc.reverse]
    | '{' :: '{' :: rest =>
      match takeAction rest with
      | none => .error "template: unclosed action"
      | some (inside, rest2) =>
        match parseFieldName inside with
        | none => .error "template: unrecognized action"
        | some nm =>
          match parseTmplAux fuel [] rest2 with
          | .error e => .error e
          | .ok nodes => .ok (TmplNode.lit acc.reverse :: TmplNode.fieldRef nm :: nodes)
    | c :: rest => parseTmplAux fuel (c :: acc) rest

/-- `template.New("template").Parse(data)`: parse error or node list. -/
def parseTmpl (data : String) : Except String (List TmplNode) :=
  parseTmplAux (data.toList.length + 1) [] data.toList

/-- `Template.Execute` over a field context: substitute each field
reference, failing on a field the context does not define. -/
def execNodes (ctx : List (String × String)) : List TmplNode → Except String String
  | [] => .ok ""
  | TmplNode.lit cs :: rest => (execNodes ctx rest).map (fun t => String.mk cs ++ t)
  | TmplNode.fieldRef nm :: rest =>
    match ctx.lookup nm with
    | none => .error ("template: cannot evaluate field " ++ nm)
    | some v => (execNodes ctx rest).map (fun t => v ++ t)

/-- The renderer contract of the spec: `render(templateBytes, context)`
returns the rendered bytes or an error value (a recoverable failure). -/
def renderTemplate (data : String) (ctx : List (String × String)) : Except String String :=
  match parseTmpl data with
  | .error e => .error e
  | .ok nodes => execNodes ctx nodes

/-- `applyTemplateData` from the source: `template.Must(...Parse(...))`
aborts the process on a parse error, and `Execute` errors are passed to
`panic` — both abort paths are modelled as `none`; only a successful
render returns bytes. -/
def applyTemplateData (data : String) (ctx : List (String × String)) : Option String :=
  match parseTmpl data with
  | .error _ => none
  | .ok nodes =>
    match execNodes ctx nodes with
    | .error _ => none
    | .ok out => some out

/-! ### Configuration objects and the YAML codec -/

/-- Modelled from the spec: the repository's `configurationObject` type
(referenced by `operators.go`, defined outside `src/`): an opaque structured
document with namespace, kind, name and an embedded string-keyed data map. -/
structure configurationObject where
  ns : String
  kind : String
  name : String
  data : List (String × String)
deriving DecidableEq, Repr

/-- Modelled from the spec: the repository's `configMap` helper building a
cluster config map `configurationObject` from namespace, name and data. -/
def configMap (nspace nm : String) (d : List (String × String)) : configurationObject :=
  { ns := nspace, kind := "ConfigMap", name := nm, data := d }

/-- Modelled from the spec: the YAML serialization collaborator
(`yaml.Marshal` / `yaml.Unmarshal`): encode may fail (a
`SerializationError`), decode may fail (an `AnchorParseError`); section 6 of
the spec requires serialize-then-parse to reproduce the object. -/
structure YamlCodec where
  marshal : configurationObject → Except String String
  unmarshal : String → Except String configurationObject

/-- A length-prefixed (unary length) string encoding used by the concrete
witness codec: `n` ones, a colon, then the `n` characters. -/
def encStr (s : String) : String :=
  String.mk (List.replicate s.length '1') ++ ":" ++ s

/-- Unary natural-number encoding used by the concrete witness codec. -/
def encNat (n : Nat) : String :=
  String.mk (List.replicate n '1') ++ ":"

/-- Parse a unary length up to its colon. -/
def parseLen : List Char → Option (Nat × List Char)
  | [] => none
  | ':' :: r => some (0, r)
  | '1' :: r => (parseLen r).map (fun p => (p.1 + 1, p.2))
  | _ => none

/-- Parse one length-prefixed string. -/
def parseStr (l : List Char) : Option (String × List Char) :=
  match parseLen l with
  | none => none
  | some (n, r) =>
    if n ≤ r.length then some (String.mk (r.take n), r.drop n) else none

/-- Parse `n` key/value pairs of length-prefixed strings. -/
def parsePairs : Nat → List Char → Option (List (String × String) × List Char)
  | 0, r => some ([], r)
  | Nat.succ k, r =>
    parseStr r >>= fun p1 =>
    parseStr p1.2 >>= fun p2 =>
    (parsePairs k p2.2).map (fun p => ((p1.1, p2.1) :: p.1, p.2))

/-- The concrete, executable codec used by witnesses: an injective
length-prefixed rendering of a `configurationObject` with a total marshal
and a partial unmarshal (garbage input is an `AnchorParseError`). -/
def defaultCodec : YamlCodec where
  marshal o := .ok ("CFG" ++ encStr o.ns ++ encStr o.kind ++ encStr o.name ++
    encNat o.data.length ++ String.join (o.data.map (fun p => encStr p.1 ++ encStr p.2)))
  unmarshal s :=
    match s.toList with
    | 'C' :: 'F' :: 'G' :: r =>
      match parseStr r with
      | none => .error "yaml: bad namespace"
      | some (nspace, r1) =>
        match parseStr r1 with
        | none => .error "yaml: bad kind"
        | some (kd, r2) =>
          match parseStr r2 with
          | none => .error "yaml: bad name"
          | some (nm, r3) =>
            match parseLen r3 with
            | none => .error "yaml: bad data length"
            | some (n, r4) =>
              match parsePairs n r4 with
              | none => .error "yaml: bad data"
              | some (d, r5) =>
                if r5 = [] then .ok { ns := nspace, kind := kd, name := nm, data := d }
                else .error "yaml: trailing bytes"
    | _ => .error "yaml: bad document"

/-! ### The resolved dependencies of the Manifests asset -/

/-- Modelled from the spec: the resolved dependency instances `Generate`
reads through `asset.Parents` (install config provider, certificate/key
providers, the bootkube template sources, and the sub-generators' already
final file lists).  Each `...Tmpl` field is the `Files()[0].Data` of the
corresponding templated bootkube asset; each `...Data` field is the
pass-through content of a non-templated one. -/
structure Parents where
  clusterID : String
  clusterName : String
  baseDomain : String
  pullSecret : String
  masterCount : Nat
  installConfigData : String
  etcdCACert : String
  etcdClientCert : String
  etcdClientKey : String
  kubeCACert : String
  kubeCAKey : String
  mcsCert : String
  mcsKey : String
  rootCACert : String
  serviceServingCACert : String
  serviceServingCAKey : String
  kubeCloudConfigTmpl : String
  machineConfigServerTLSSecretTmpl : String
  openshiftServiceCertSignerSecretTmpl : String
  pullTmpl : String
  cvoOverridesTmpl : String
  hostEtcdServiceEndpointsTmpl : String
  kubeSystemConfigmapEtcdServingCATmpl : String
  kubeSystemConfigmapRootCATmpl : String
  kubeSystemSecretEtcdClientTmpl : String
  openshiftMachineConfigOperatorData : String
  openshiftServiceCertSignerNamespaceData : String
  etcdServiceKubeSystemData : String
  hostEtcdServiceKubeSystemData : String
  ingressFiles : List GoFile
  dnsFiles : List GoFile
  networkingFiles : List GoFile
  infrastructureFiles : List GoFile
deriving DecidableEq, Repr

/-- `bootkubeTemplateData` from the source: the shared template context. -/
structure bootkubeTemplateData where
  Base64encodeCloudProviderConfig : String
  EtcdCaCert : String
  EtcdClientCert : String
  EtcdClientKey : String
  KubeCaCert : String
  KubeCaKey : String
  McsTLSCert : String
  McsTLSKey : String
  PullSecretBase64 : String
  RootCaCert : String
  ServiceServingCaCert : String
  ServiceServingCaKey : String
  CVOClusterID : String
  EtcdEndpointHostnames : List String
  EtcdEndpointDNSSuffix : String
deriving DecidableEq, Repr

/-- The etcd endpoint hostname loop of `generateBootKubeManifests`: one
entry per control-plane replica, `fmt.Sprintf("%s-etcd-%d", name, i)`. -/
def etcdEndpointHostnames (deps : Parents) : List String :=
  (List.range deps.masterCount).map (fun i => deps.clusterName ++ "-etcd-" ++ toString i)

/-- The `templateData` literal of `generateBootKubeManifests`: per-field
choice of raw versus standard-base64 encoding, exactly as in the source. -/
def mkBootkubeTemplateData (deps : Parents) : bootkubeTemplateData where
  Base64encodeCloudProviderConfig := ""
  EtcdCaCert := deps.etcdCACert
  EtcdClientCert := base64Encode deps.etcdClientCert
  EtcdClientKey := base64Encode deps.etcdClientKey
  KubeCaCert := base64Encode deps.kubeCACert
  KubeCaKey := base64Encode deps.kubeCAKey
  McsTLSCert := base64Encode deps.mcsCert
  McsTLSKey := base64Encode deps.mcsKey
  PullSecretBase64 := base64Encode deps.pullSecret
  RootCaCert := deps.rootCACert
  ServiceServingCaCert := base64Encode deps.serviceServingCACert
  ServiceServingCaKey := base64Encode deps.serviceServingCAKey
  CVOClusterID := deps.clusterID
  EtcdEndpointHostnames := etcdEndpointHostnames deps
  EtcdEndpointDNSSuffix := deps.baseDomain

/-- The template context as the field map handed to the engine model (the
list-valued hostname field is flattened for the simplified engine). -/
def bootkubeCtx (d : bootkubeTemplateData) : List (String × String) :=
  [("Base64encodeCloudProviderConfig", d.Base64encodeCloudProviderConfig),
   ("EtcdCaCert", d.EtcdCaCert),
   ("EtcdClientCert", d.EtcdClientCert),
   ("EtcdClientKey", d.EtcdClientKey),
   ("KubeCaCert", d.KubeCaCert),
   ("KubeCaKey", d.KubeCaKey),
   ("McsTLSCert", d.McsTLSCert),
   ("McsTLSKey", d.McsTLSKey),
   ("PullSecretBase64", d.PullSecretBase64),
   ("RootCaCert", d.RootCaCert),
   ("ServiceServingCaCert", d.ServiceServingCaCert),
   ("ServiceServingCaKey", d.ServiceServingCaKey),
   ("CVOClusterID", d.CVOClusterID),
   ("EtcdEndpointHostnames", String.intercalate "," d.EtcdEndpointHostnames),
   ("EtcdEndpointDNSSuffix", d.EtcdEndpointDNSSuffix)]

/-- `filepath.Join` for the non-empty relative components the source joins. -/
def filepathJoin (a b : String) : String := a ++ "/" ++ b

/-- `manifestDir` from the source. -/
def manifestDir : String := "manifests"

/-- `kubeSysConfigPath` from the source: the anchor's fixed path. -/
def kubeSysConfigPath : String := filepathJoin manifestDir "cluster-config.yaml"

/-- The `assetData` map literal of `generateBootKubeManifests`, as the
association list in source order: nine templated entries and four
pass-through entries.  Evaluating the map literal runs every
`applyTemplateData`; any template failure aborts the process, so the result
is `none` exactly when some render aborts. -/
def assetDataList (deps : Parents) : Option (List (String × String)) :=
  let ctx := bootkubeCtx (mkBootkubeTemplateData deps)
  applyTemplateData deps.kubeCloudConfigTmpl ctx >>= fun a1 =>
  applyTemplateData deps.machineConfigServerTLSSecretTmpl ctx >>= fun a2 =>
  applyTemplateData deps.openshiftServiceCertSignerSecretTmpl ctx >>= fun a3 =>
  applyTemplateData deps.pullTmpl ctx >>= fun a4 =>
  applyTemplateData deps.cvoOverridesTmpl ctx >>= fun a5 =>
  applyTemplateData deps.hostEtcdServiceEndpointsTmpl ctx >>= fun a6 =>
  applyTemplateData deps.kubeSystemConfigmapEtcdServingCATmpl ctx >>= fun a7 =>
  applyTemplateData deps.kubeSystemConfigmapRootCATmpl ctx >>= fun a8 =>
  applyTemplateData deps.kubeSystemSecretEtcdClientTmpl ctx >>= fun a9 =>
  some [("kube-cloud-config.yaml", a1),
        ("machine-config-server-tls-secret.yaml", a2),
        ("openshift-service-signer-secret.yaml", a3),
        ("pull.json", a4),
        ("cvo-overrides.yaml", a5),
        ("host-etcd-service-endpoints.yaml", a6),
        ("kube-system-configmap-etcd-serving-ca.yaml", a7),
        ("kube-system-configmap-root-ca.yaml", a8),
        ("kube-system-secret-etcd-client.yaml", a9),
        ("04-openshift-machine-config-operator.yaml", deps.openshiftMachineConfigOperatorData),
        ("09-openshift-service-signer-namespace.yaml", deps.openshiftServiceCertSignerNamespaceData),
        ("etcd-service.yaml", deps.etcdServiceKubeSystemData),
        ("host-etcd-service.yaml", deps.hostEtcdServiceKubeSystemData)]

/-- The file-building loop over the `assetData` map: since a Go map carries
no iteration order, the traversal order `iter` (a permutation of the
association list) is an explicit parameter. -/
def generateBootKubeFiles (iter : List (String × String)) : List GoFile :=
  iter.map (fun p => { filename := filepathJoin manifestDir p.1, data := p.2 })

/-! ### Sorting (asset.SortFiles) -/

/-- Lexicographic (Go byte-wise) comparison of paths as an executable
boolean over character lists. -/
def charListLE : List Char → List Char → Bool
  | [], _ => true
  | _ :: _, [] => false
  | c :: cs, d :: ds =>
    if c.toNat < d.toNat then true
    else if d.toNat < c.toNat then false
    else charListLE cs ds

/-- Path comparison used for sorting
(`files[i].Filename < files[j].Filename` in `sort.Slice`). -/
def fileLE (a b : GoFile) : Prop :=
  charListLE a.filename.toList b.filename.toList = true

/-- Strict path comparison: at or below in the path order and on a
different path. -/
def fileLT (a b : GoFile) : Prop := fileLE a b ∧ a.filename ≠ b.filename

instance : DecidableRel fileLE := fun a b =>
  inferInstanceAs (Decidable (charListLE a.filename.toList b.filename.toList = true))

instance : DecidableRel fileLT := fun a b =>
  inferInstanceAs (Decidable (fileLE a b ∧ a.filename ≠ b.filename))

instance {ε α : Type} [DecidableEq ε] [DecidableEq α] : DecidableEq (Except ε α) :=
  fun a b =>
    match a, b with
    | .error e1, .error e2 =>
      if h : e1 = e2 then .isTrue (by rw [h])
      else .isFalse (fun hc => h (Except.error.inj hc))
    | .error _, .ok _ => .isFalse (fun hc => Except.noConfusion hc)
    | .ok _, .error _ => .isFalse (fun hc => Except.noConfusion hc)
    | .ok a1, .ok a2 =>
      if h : a1 = a2 then .isTrue (by rw [h])
      else .isFalse (fun hc => h (Except.ok.inj hc))

instance : IsTotal GoFile fileLE := ⟨by
  have H : ∀ x y : List Char, charListLE x y = true ∨ charListLE y x = true := by
    intro x
    induction x with
    | nil => intro y; left; rfl
    | cons c cs ih =>
      intro y
      cases y with
      | nil => right; rfl
      | cons d ds =>
        by_cases h1 : c.toNat < d.toNat
        · left; simp [charListLE, h1]
        · by_cases h2 : d.toNat < c.toNat
          · right; simp [charListLE, h2]
          · rcases ih ds with h | h
            · left; simp [charListLE, h1, h2, h]
            · right; simp [charListLE, h1, h2, h]
  intro a b
  exact H a.filename.toList b.filename.toList⟩

instance : IsTrans GoFile fileLE := ⟨by
  have H : ∀ x y z : List Char, charListLE x y = true → charListLE y z = true →
      charListLE x z = true := by
    intro x
    induction x with
    | nil => intro y z _ _; rfl
    | cons c cs ih =>
      intro y z hxy hyz
      cases y with
      | nil => simp [charListLE] at hxy
      | cons d ds =>
        cases z with
        | nil => simp [charListLE] at hyz
        | cons e es =>
          by_cases h2 : d.toNat < c.toNat
          · have h1 : ¬ c.toNat < d.toNat := by omega
            simp [charListLE, h1, h2] at hxy
          · by_cases h4 : e.toNat < d.toNat
            · have h3 : ¬ d.toNat < e.toNat := by omega
              simp [charListLE, h3, h4] at hyz
            · by_cases h5 : c.toNat < e.toNat
              · simp [charListLE, h5]
              · have hc1 : ¬ c.toNat < d.toNat := by omega
                have hc3 : ¬ d.toNat < e.toNat := by omega
                have he2 : ¬ e.toNat < c.toNat := by omega
                simp [charListLE, hc1, h2, hc3, h4] at hxy hyz
                simp [charListLE, h5, he2]
                exact ih ds es hxy hyz
  intro a b c h1 h2
  exact H a.filename.toList b.filename.toList c.filename.toList h1 h2⟩

instance : IsAntisymm GoFile fileLT := ⟨by
  have H : ∀ x y : List Char, charListLE x y = true → charListLE y x = true → x = y := by
    intro x
    induction x with
    | nil =>
      intro y _ h2
      cases y with
      | nil => rfl
      | cons d ds => simp [charListLE] at h2
    | cons c cs ih =>
      intro y h1 h2
      cases y with
      | nil => simp [charListLE] at h1
      | cons d ds =>
        by_cases hcd : c.toNat < d.toNat
        · have h3 : ¬ d.toNat < c.toNat := by omega
          simp [charListLE, h3, hcd] at h2
        · by_cases hdc : d.toNat < c.toNat
          · simp [charListLE, hcd, hdc] at h1
          · have hce : c = d := by
              have hcd' : ¬ c.val.toNat < d.val.toNat := hcd
              have hdc' : ¬ d.val.toNat < c.val.toNat := hdc
              exact Char.ext (UInt32.ext (by omega))
            simp [charListLE, hcd, hdc] at h1 h2
            rw [hce, ih ds h1 h2]
  intro a b h1 h2
  have heq : a.filename = b.filename :=
    String.toList_inj.mp (H a.filename.toList b.filename.toList h1.1 h2.1)
  exact absurd heq h1.2⟩

/-- Modelled from the spec: `asset.SortFiles` (defined outside `src/`)
sorts a file list lexicographically by path. -/
def sortFiles (l : List GoFile) : List GoFile := l.insertionSort fileLE

/-! ### Generate -/

/-- Outcome of one `Generate` run: a process abort (template `panic`), a
returned error, or the produced file list plus the anchor object. -/
inductive GenOutcome where
  | panicked
  | failed (msg : String)
  | generated (files : List GoFile) (cfg : configurationObject)
deriving DecidableEq, Repr

/-- The anchor `configurationObject` built by `Generate`:
`configMap("kube-system", "cluster-config-v1", ...)` embedding the
serialized install configuration under the single key `install-config`. -/
def anchorObject (deps : Parents) : configurationObject :=
  configMap "kube-system" "cluster-config-v1" [("install-config", deps.installConfigData)]

/-- `Manifests.Generate` from the source: build and marshal the anchor
(a marshal failure returns a wrapped error), render the bootkube manifests
(a template failure aborts the process), append the sub-generators' files,
and sort the merged list by path. -/
def Generate (codec : YamlCodec) (deps : Parents) (iter : List (String × String)) :
    GenOutcome :=
  match codec.marshal (anchorObject deps) with
  | .error e => .failed ("failed to create kube-system/cluster-config-v1 configmap: " ++ e)
  | .ok kubeSysConfigData =>
    match assetDataList deps with
    | none => .panicked
    | some _ =>
      let fileList : List GoFile :=
        { filename := kubeSysConfigPath, data := kubeSysConfigData } ::
          (generateBootKubeFiles iter ++ deps.ingressFiles ++ deps.dnsFiles ++
            deps.networkingFiles ++ deps.infrastructureFiles)
      .generated (sortFiles fileList) (anchorObject deps)

/-- The path list of the merged file set a `Generate` run assembles, before
sorting: the anchor path, the bootkube paths in traversal order, then the
sub-generators' paths. -/
def generatePathList (deps : Parents) (iter : List (String × String)) : List String :=
  kubeSysConfigPath :: (iter.map (fun p => filepathJoin manifestDir p.1) ++
    (deps.ingressFiles ++ deps.dnsFiles ++ deps.networkingFiles ++
      deps.infrastructureFiles).map GoFile.filename)

/-! ### Load -/

/-- The `Manifests` asset state: anchor object pointer and file list. -/
structure Manifests where
  KubeSysConfig : Option configurationObject
  FileList : List GoFile
deriving DecidableEq, Repr

/-- Modelled from the spec: the result of the storage collaborator's
`FetchByPattern("manifests/*")` call — an enumeration failure or the file
list in whatever order storage yields it. -/
inductive FetchResult where
  | fetchErr (msg : String)
  | fetched (files : List GoFile)
deriving DecidableEq, Repr

/-- The anchor-scanning loop of `Manifests.Load`: every file at the anchor
path is unmarshalled (the last one wins); a decode failure returns a
wrapped error at once. -/
def loadLoop (codec : YamlCodec) :
    List GoFile → Option configurationObject → Except String (Option configurationObject)
  | [], acc => .ok acc
  | f :: rest, acc =>
    if f.filename = kubeSysConfigPath then
      match codec.unmarshal f.data with
      | .error e => .error ("failed to unmarshal cluster-config.yaml: " ++ e)
      | .ok obj => loadLoop codec rest (some obj)
    else loadLoop codec rest acc

/-- Result of one `Load` call: the (possibly updated) receiver state, the
`found` flag and the returned error. -/
structure LoadResult where
  state : Manifests
  found : Bool
  err : Option String
deriving DecidableEq, Repr

/-- `Manifests.Load` from the source: propagate an enumeration error;
report not-found on an empty listing or a missing anchor; a bad anchor is a
hard error; on success assign the sorted file list and the anchor object. -/
def Load (codec : YamlCodec) (m : Manifests) (fr : FetchResult) : LoadResult :=
  match fr with
  | .fetchErr e => { state := m, found := false, err := some e }
  | .fetched fileList =>
    if fileList.length = 0 then { state := m, found := false, err := none }
    else
      match loadLoop codec fileList none with
      | .error e => { state := m, found := false, err := some e }
      | .ok none => { state := m, found := false, err := none }
      | .ok (some cfg) =>
        { state := { KubeSysConfig := some cfg, FileList := sortFiles fileList },
          found := true, err := none }

/-! ### Spec-side predicates and concrete sample inputs -/

/-- No two files of the list share a path. -/
def NodupPaths (l : List GoFile) : Prop := (l.map GoFile.filename).Nodup

/-- Paths are strictly lexicographically increasing along the list. -/
def StrictlySortedPaths (l : List GoFile) : Prop := List.Pairwise fileLT l

instance (l : List GoFile) : Decidable (NodupPaths l) :=
  inferInstanceAs (Decidable (l.map GoFile.filename).Nodup)

instance (l : List GoFile) : Decidable (StrictlySortedPaths l) :=
  inferInstanceAs (Decidable (List.Pairwise fileLT l))

/-- The spec's wording of `indent`, stated recursively: every newline is
replaced by a newline followed by `n` spaces, all other characters kept. -/
def indentSpecChars (n : Nat) : List Char → List Char
  | [] => []
  | c :: r =>
    if c = '\n' then '\n' :: (List.replicate n ' ' ++ indentSpecChars n r)
    else c :: indentSpecChars n r

/-- A codec whose marshal always fails: exercises the serialization-error
branch of `Generate`. -/
def failingCodec : YamlCodec where
  marshal _ := .error "boom"
  unmarshal _ := .error "boom"

/-- A small concrete dependency set used by the witness theorems: three
control-plane replicas, cluster name `demo`, literal one-character
templates, and no sub-generator files. -/
def sampleParents : Parents where
  clusterID := "cid"
  clusterName := "demo"
  baseDomain := "example.com"
  pullSecret := "ps"
  masterCount := 3
  installConfigData := "icdata"
  etcdCACert := "eca"
  etcdClientCert := "ecc"
  etcdClientKey := "eck"
  kubeCACert := "kcc"
  kubeCAKey := "kck"
  mcsCert := "mc"
  mcsKey := "mk"
  rootCACert := "rca"
  serviceServingCACert := "ssc"
  serviceServingCAKey := "ssk"
  kubeCloudConfigTmpl := "a"
  machineConfigServerTLSSecretTmpl := "b"
  openshiftServiceCertSignerSecretTmpl := "c"
  pullTmpl := "d"
  cvoOverridesTmpl := "e"
  hostEtcdServiceEndpointsTmpl := "f"
  kubeSystemConfigmapEtcdServingCATmpl := "g"
  kubeSystemConfigmapRootCATmpl := "h"
  kubeSystemSecretEtcdClientTmpl := "i"
  openshiftMachineConfigOperatorData := "j"
  openshiftServiceCertSignerNamespaceData := "k"
  etcdServiceKubeSystemData := "l"
  hostEtcdServiceKubeSystemData := "m"
  ingressFiles := []
  dnsFiles := []
  networkingFiles := []
  infrastructureFiles := []

/-- The concrete `assetData` association list of `sampleParents`. -/
def sampleAD : List (String × String) := (assetDataList sampleParents).getD []

/-- The outcome of the sample `Generate` run under the witness codec. -/
def sampleGenOutcome : GenOutcome := Generate defaultCodec sampleParents sampleAD

/-- The file list of the sample `Generate` run. -/
def sampleFiles : List GoFile :=
  match sampleGenOutcome with
  | .generated fs _ => fs
  | _ => []

/-- The anchor object of the sample `Generate` run. -/
def sampleObj : configurationObject :=
  match sampleGenOutcome with
  | .generated _ o => o
  | _ => configMap "" "" []

/-- The marshalled anchor bytes of the sample run under the witness codec. -/
def sampleSData : String :=
  match defaultCodec.marshal (anchorObject sampleParents) with
  | .ok s => s
  | .error _ => ""

/-- An empty receiver state for the witness `Load` calls. -/
def sampleManifests : Manifests := { KubeSysConfig := none, FileList := [] }

/-! ### Helper lemmas -/

theorem sortFiles_perm (l : List GoFile) : List.Perm (sortFiles l) l :=
  List.perm_insertionSort _ _

theorem sortFiles_sorted (l : List GoFile) : List.Sorted fileLE (sortFiles l) :=
  List.sorted_insertionSort _ _

theorem nodupPaths_iff {l : List GoFile} :
    NodupPaths l ↔ l.Pairwise (fun a b => a.filename ≠ b.filename) := by
  unfold NodupPaths
  rw [List.Nodup, List.pairwise_map]

theorem nodupPaths_of_perm {l₁ l₂ : List GoFile} (h : List.Perm l₁ l₂)
    (hn : NodupPaths l₁) : NodupPaths l₂ :=
  ((h.map GoFile.filename).nodup_iff).mp hn

theorem strict_of_sorted_nodup {l : List GoFile} (hs : List.Sorted fileLE l)
    (hn : NodupPaths l) : StrictlySortedPaths l := by
  have hne := nodupPaths_iff.mp hn
  exact (List.Pairwise.and hs hne).imp (fun h => ⟨h.1, h.2⟩)

theorem nodupPaths_of_strict {l : List GoFile} (h : StrictlySortedPaths l) :
    NodupPaths l :=
  nodupPaths_iff.mpr (h.imp (fun hlt => hlt.2))

theorem sortFiles_strict {l : List GoFile} (hn : NodupPaths l) :
    StrictlySortedPaths (sortFiles l) :=
  strict_of_sorted_nodup (sortFiles_sorted l)
    (nodupPaths_of_perm (sortFiles_perm l).symm hn)

theorem strict_eq_of_perm {l₁ l₂ : List GoFile} (hp : List.Perm l₁ l₂)
    (h₁ : StrictlySortedPaths l₁) (h₂ : StrictlySortedPaths l₂) : l₁ = l₂ :=
  List.eq_of_perm_of_sorted hp h₁ h₂

theorem sortFiles_eq_of_perm {l₁ l₂ : List GoFile} (hp : List.Perm l₁ l₂)
    (hn : NodupPaths l₁) : sortFiles l₁ = sortFiles l₂ := by
  have hperm : List.Perm (sortFiles l₁) (sortFiles l₂) :=
    ((sortFiles_perm l₁).trans hp).trans (sortFiles_perm l₂).symm
  exact strict_eq_of_perm hperm (sortFiles_strict hn)
    (sortFiles_strict (nodupPaths_of_perm hp hn))

theorem mem_sortFiles {l : List GoFile} {f : GoFile} : f ∈ sortFiles l ↔ f ∈ l :=
  (sortFiles_perm l).mem_iff

/-- The path list of the merged pre-sort file list is `generatePathList`. -/
theorem generate_paths_eq (deps : Parents) (iter : List (String × String)) (d : String) :
    (({ filename := kubeSysConfigPath, data := d } : GoFile) ::
      (generateBootKubeFiles iter ++ deps.ingressFiles ++ deps.dnsFiles ++
        deps.networkingFiles ++ deps.infrastructureFiles)).map GoFile.filename =
      generatePathList deps iter := by
  simp [generatePathList, generateBootKubeFiles, List.map_append, List.map_map,
    Function.comp, List.append_assoc]

theorem loadLoop_const {codec : YamlCodec} {obj : configurationObject} :
    ∀ l : List GoFile,
      (∀ f ∈ l, f.filename = kubeSysConfigPath → codec.unmarshal f.data = .ok obj) →
      loadLoop codec l (some obj) = .ok (some obj) := by
  intro l
  induction l with
  | nil => intro _; rfl
  | cons g rest ih =>
    intro h
    by_cases hg : g.filename = kubeSysConfigPath
    · have hu := h g (List.mem_cons_self g rest) hg
      simp [loadLoop, hg, hu]
      exact ih (fun f hf hfn => h f (List.mem_cons_of_mem g hf) hfn)
    · simp [loadLoop, hg]
      exact ih (fun f hf hfn => h f (List.mem_cons_of_mem g hf) hfn)

theorem loadLoop_finds {codec : YamlCodec} {obj : configurationObject} :
    ∀ (l : List GoFile) (acc : Option configurationObject),
      (∀ f ∈ l, f.filename = kubeSysConfigPath → codec.unmarshal f.data = .ok obj) →
      (∃ f ∈ l, f.filename = kubeSysConfigPath) →
      loadLoop codec l acc = .ok (some obj) := by
  intro l
  induction l with
  | nil => intro acc _ hex; rcases hex with ⟨f, hf, _⟩; cases hf
  | cons g rest ih =>
    intro acc h hex
    by_cases hg : g.filename = kubeSysConfigPath
    · have hu := h g (List.mem_cons_self g rest) hg
      simp [loadLoop, hg, hu]
      exact loadLoop_const rest (fun f hf hfn => h f (List.mem_cons_of_mem g hf) hfn)
    · simp [loadLoop, hg]
      rcases hex with ⟨f, hf, hfn⟩
      rcases List.mem_cons.mp hf with rfl | hf'
      · exact absurd hfn hg
      · exact ih acc (fun f' hf' hfn' => h f' (List.mem_cons_of_mem g hf') hfn') ⟨f, hf', hfn⟩

theorem loadLoop_no_anchor {codec : YamlCodec} :
    ∀ (l : List GoFile) (acc : Option configurationObject),
      (∀ f ∈ l, f.filename ≠ kubeSysConfigPath) →
      loadLoop codec l acc = .ok acc := by
  intro l
  induction l with
  | nil => intro acc _; rfl
  | cons g rest ih =>
    intro acc h
    have hg := h g (List.mem_cons_self g rest)
    simp [loadLoop, hg]
    exact ih acc (fun f hf => h f (List.mem_cons_of_mem g hf))

theorem loadLoop_error {codec : YamlCodec} :
    ∀ (l : List GoFile) (acc : Option configurationObject) (f : GoFile) (e : String),
      f ∈ l → f.filename = kubeSysConfigPath → codec.unmarshal f.data = .error e →
      ∃ msg, loadLoop codec l acc = .error msg := by
  intro l
  induction l with
  | nil => intro acc f e hf; cases hf
  | cons g rest ih =>
    intro acc f e hf hfn hfe
    rcases List.mem_cons.mp hf with rfl | hf'
    · refine ⟨"failed to unmarshal cluster-config.yaml: " ++ e, ?_⟩
      simp [loadLoop, hfn, hfe]
    · by_cases hg : g.filename = kubeSysConfigPath
      · cases hgu : codec.unmarshal g.data with
        | error e' =>
          refine ⟨"failed to unmarshal cluster-config.yaml: " ++ e', ?_⟩
          simp [loadLoop, hg, hgu]
        | ok obj' =>
          rcases ih (some obj') f e hf' hfn hfe with ⟨msg, hmsg⟩
          refine ⟨msg, ?_⟩
          simp [loadLoop, hg, hgu, hmsg]
      · rcases ih acc f e hf' hfn hfe with ⟨msg, hmsg⟩
        refine ⟨msg, ?_⟩
        simp [loadLoop, hg, hmsg]

theorem flatten_replicate_singleton (n : Nat) (c : Char) :
    (List.replicate n [c]).flatten = List.replicate n c := by
  induction n with
  | zero => rfl
  | succ k ih => simp [List.replicate_succ, ih]

theorem newline_toList (n : Nat) :
    ("\n" ++ stringsRepeat " " n).toList = '\n' :: List.replicate n ' ' := by
  have h : (stringsRepeat " " n).toList = List.replicate n ' ' := by
    show ((List.replicate n (" ".toList)).flatten : List Char) = List.replicate n ' '
    exact flatten_replicate_singleton n ' '
  simp [String.toList] at h ⊢
  simpa [String.toList] using h

theorem replaceChar_newline_spec (n : Nat) :
    ∀ l : List Char,
      replaceChar '\n' ('\n' :: List.replicate n ' ') l = indentSpecChars n l := by
  intro l
  induction l with
  | nil => rfl
  | cons c r ih =>
    by_cases hc : c = '\n'
    · subst hc; simp [replaceChar, indentSpecChars, ih]
    · simp [replaceChar, indentSpecChars, hc, ih]

/-! ### Claim theorems -/

/-- C1, counterexample: the claim that rendering a template never
terminates the process is false — `applyTemplateData` aborts (Go `panic`,
modelled as `none`) on the malformed template `\x7b\x7b`, instead of
returning a recoverable error value. -/
theorem claim_C1_counterexample :
    ¬ ∀ (data : String) (ctx : List (String × String)), applyTemplateData data ctx ≠ none :=
  fun h => h "\x7b\x7b" [] (by decide)

/-- C1, amended: `applyTemplateData` terminates the process exactly when
the renderer contract would report a parse or execution error, and returns
the rendered bytes exactly when rendering succeeds — failures are never
surfaced to the caller as error values. -/
theorem claim_C1_render_panic_channel :
    ∀ (data : String) (ctx : List (String × String)),
      (applyTemplateData data ctx = none ↔ ∃ e, renderTemplate data ctx = .error e) ∧
      (∀ out, applyTemplateData data ctx = some out ↔ renderTemplate data ctx = .ok out) := by
  intro data ctx
  unfold applyTemplateData renderTemplate
  cases hp : parseTmpl data with
  | error e => simp
  | ok nodes =>
    cases he : execNodes ctx nodes with
    | error e => simp [he]
    | ok out => simp [he]

/-- C6: the etcd endpoint hostname sequence has one entry per control-plane
replica, entry `i` being `<clusterName>-etcd-<i>`; for master count 3 and
cluster name `demo` it is exactly `[demo-etcd-0, demo-etcd-1, demo-etcd-2]`. -/
theorem claim_C6_etcd_endpoint_hostnames :
    ∀ deps : Parents,
      ((mkBootkubeTemplateData deps).EtcdEndpointHostnames).length = deps.masterCount ∧
      (∀ i : Nat, i < deps.masterCount →
        ((mkBootkubeTemplateData deps).EtcdEndpointHostnames).getD i "" =
          deps.clusterName ++ "-etcd-" ++ toString i) ∧
      (deps.masterCount = 3 → deps.clusterName = "demo" →
        (mkBootkubeTemplateData deps).EtcdEndpointHostnames =
          ["demo-etcd-0", "demo-etcd-1", "demo-etcd-2"]) := by
  intro deps
  refine ⟨?_, ?_, ?_⟩
  · simp [mkBootkubeTemplateData, etcdEndpointHostnames]
  · intro i h
    simp [mkBootkubeTemplateData, etcdEndpointHostnames, List.getD,
      List.getElem?_map, List.getElem?_range, h]
  · intro h1 h2
    show etcdEndpointHostnames deps = _
    rw [etcdEndpointHostnames, h1, h2]
    decide

/-- C6 witness: the hostname sequence of the concrete sample input. -/
theorem claim_C6_witness :
    (mkBootkubeTemplateData sampleParents).EtcdEndpointHostnames =
      ["demo-etcd-0", "demo-etcd-1", "demo-etcd-2"] :=
  (claim_C6_etcd_endpoint_hostnames sampleParents).2.2 (by decide) (by decide)

/-- C7: `indent` replaces every newline with a newline followed by `n`
spaces (stated against the recursive spec reading, plus the concrete
instance), and `add` is integer addition with `add 3 4 = 7`. -/
theorem claim_C7_template_functions :
    (∀ (n : Nat) (v : String), indent n v = String.mk (indentSpecChars n v.toList)) ∧
    indent 2 "a\nb" = "a\n  b" ∧ add 3 4 = 7 := by
  refine ⟨?_, by decide, by decide⟩
  intro n v
  simp only [indent]
  rw [newline_toList n, replaceChar_newline_spec n v.toList]

/-- C8: the per-field encoding choice of the template context is exact —
the etcd CA and root CA certificates are embedded raw, while the listed
certificate, key and pull-secret fields are standard-base64 encoded (the
encoder checked on concrete inputs against standard base64 values). -/
theorem claim_C8_field_encoding :
    (∀ deps : Parents,
      (mkBootkubeTemplateData deps).EtcdCaCert = deps.etcdCACert ∧
      (mkBootkubeTemplateData deps).RootCaCert = deps.rootCACert ∧
      (mkBootkubeTemplateData deps).EtcdClientCert = base64Encode deps.etcdClientCert ∧
      (mkBootkubeTemplateData deps).EtcdClientKey = base64Encode deps.etcdClientKey ∧
      (mkBootkubeTemplateData deps).KubeCaCert = base64Encode deps.kubeCACert ∧
      (mkBootkubeTemplateData deps).KubeCaKey = base64Encode deps.kubeCAKey ∧
      (mkBootkubeTemplateData deps).McsTLSCert = base64Encode deps.mcsCert ∧
      (mkBootkubeTemplateData deps).McsTLSKey = base64Encode deps.mcsKey ∧
      (mkBootkubeTemplateData deps).PullSecretBase64 = base64Encode deps.pullSecret ∧
      (mkBootkubeTemplateData deps).ServiceServingCaCert = base64Encode deps.serviceServingCACert ∧
      (mkBootkubeTemplateData deps).ServiceServingCaKey = base64Encode deps.serviceServingCAKey) ∧
    base64Encode "demo" = "ZGVtbw==" ∧ base64Encode "a" = "YQ==" :=
  ⟨fun _ => ⟨rfl, rfl, rfl, rfl, rfl, rfl, rfl, rfl, rfl, rfl, rfl⟩, by decide, by decide⟩

/-- C10: `Load` leaves the receiver untouched on every path that does not
report `found = true` — enumeration error, empty listing, missing anchor,
or anchor decode failure — and a successful load carries no error. -/
theorem claim_C10_load_atomic :
    ∀ (codec : YamlCodec) (m : Manifests) (fr : FetchResult),
      ((Load codec m fr).found = false → (Load codec m fr).state = m) ∧
      ((Load codec m fr).err ≠ none → (Load codec m fr).state = m) ∧
      ((Load codec m fr).found = true → (Load codec m fr).err = none) := by
  intro codec m fr
  cases fr with
  | fetchErr e => simp [Load]
  | fetched fl =>
    by_cases h0 : fl.length = 0
    · simp [Load, h0]
    · cases hl : loadLoop codec fl none with
      | error e => simp [Load, h0, hl]
      | ok acc =>
        cases acc with
        | none => simp [Load, h0, hl]
        | some cfg => simp [Load, h0, hl]

/-- C10 witness: an empty listing leaves the sample receiver unchanged. -/
theorem claim_C10_witness :
    (Load defaultCodec sampleManifests (FetchResult.fetched [])).state = sampleManifests :=
  (claim_C10_load_atomic defaultCodec sampleManifests (FetchResult.fetched [])).1 (by decide)

/-- C4: `Load` reports not-found with no error on an empty enumeration and
when files exist but none sits at the anchor path; a file at the anchor
path that fails to deserialize yields a non-nil error, distinct from the
not-found cases. -/
theorem claim_C4_load_not_found_vs_error :
    (∀ (codec : YamlCodec) (m : Manifests),
      Load codec m (FetchResult.fetched []) = { state := m, found := false, err := none }) ∧
    (∀ (codec : YamlCodec) (m : Manifests) (fl : List GoFile),
      fl ≠ [] → (∀ f ∈ fl, f.filename ≠ kubeSysConfigPath) →
      Load codec m (FetchResult.fetched fl) = { state := m, found := false, err := none }) ∧
    (∀ (codec : YamlCodec) (m : Manifests) (fl : List GoFile) (f : GoFile) (e : String),
      f ∈ fl → f.filename = kubeSysConfigPath → codec.unmarshal f.data = .error e →
      ∃ msg, Load codec m (FetchResult.fetched fl) =
        { state := m, found := false, err := some msg }) := by
  refine ⟨?_, ?_, ?_⟩
  · intro codec m
    simp [Load]
  · intro codec m fl hne hno
    have h0 : ¬ fl.length = 0 := by simpa [List.length_eq_zero] using hne
    simp [Load, h0, loadLoop_no_anchor fl none hno]
  · intro codec m fl f e hf hfn hfe
    have hne : fl ≠ [] := List.ne_nil_of_mem hf
    have h0 : ¬ fl.length = 0 := by simpa [List.length_eq_zero] using hne
    rcases loadLoop_error fl none f e hf hfn hfe with ⟨msg, hmsg⟩
    exact ⟨msg, by simp [Load, h0, hmsg]⟩

/-- C4 witness: the three branches at concrete inputs — empty listing,
files without an anchor, and an anchor file whose bytes do not parse. -/
theorem claim_C4_witness :
    Load defaultCodec sampleManifests (FetchResult.fetched []) =
      { state := sampleManifests, found := false, err := none } ∧
    Load defaultCodec sampleManifests
        (FetchResult.fetched [{ filename := "manifests/pull.json", data := "x" }]) =
      { state := sampleManifests, found := false, err := none } ∧
    (Load defaultCodec sampleManifests
        (FetchResult.fetched [{ filename := kubeSysConfigPath, data := "garbage" }])).err ≠
      none := by
  obtain ⟨h1, h2, h3⟩ := claim_C4_load_not_found_vs_error
  refine ⟨h1 defaultCodec sampleManifests,
    h2 defaultCodec sampleManifests _ (by decide) (by decide), ?_⟩
  rcases h3 defaultCodec sampleManifests
      [{ filename := kubeSysConfigPath, data := "garbage" }]
      { filename := kubeSysConfigPath, data := "garbage" } "yaml: bad document"
      (by decide) (by decide) (by decide) with ⟨msg, hmsg⟩
  rw [hmsg]
  simp

/-- C5: a successful `Generate` emits the anchor file at the fixed path
`manifests/cluster-config.yaml`, whose bytes are the serialization of the
cluster config object embedding the install configuration under the single
key `install-config`; a serialization failure aborts `Generate` with a
wrapped error. -/
theorem claim_C5_anchor_file :
    (∀ (codec : YamlCodec) (deps : Parents) (iter : List (String × String))
        (files : List GoFile) (obj : configurationObject),
      Generate codec deps iter = GenOutcome.generated files obj →
      obj = configMap "kube-system" "cluster-config-v1"
        [("install-config", deps.installConfigData)] ∧
      kubeSysConfigPath = "manifests/cluster-config.yaml" ∧
      ∃ d, codec.marshal obj = .ok d ∧
        ({ filename := kubeSysConfigPath, data := d } : GoFile) ∈ files) ∧
    (∀ (codec : YamlCodec) (deps : Parents) (iter : List (String × String)) (e : String),
      codec.marshal (configMap "kube-system" "cluster-config-v1"
        [("install-config", deps.installConfigData)]) = .error e →
      Generate codec deps iter =
        GenOutcome.failed ("failed to create kube-system/cluster-config-v1 configmap: " ++ e)) := by
  constructor
  · intro codec deps iter files obj hg
    cases hm : codec.marshal (anchorObject deps) with
    | error e => simp [Generate, hm] at hg
    | ok d =>
      cases ha : assetDataList deps with
      | none => simp [Generate, hm, ha] at hg
      | some ad =>
        simp only [Generate, hm, ha] at hg
        obtain ⟨hfiles, hobj⟩ := (GenOutcome.generated.injEq _ _ _ _).mp hg
        subst hobj
        subst hfiles
        exact ⟨rfl, rfl, d, hm, mem_sortFiles.mpr (List.mem_cons_self _ _)⟩
  · intro codec deps iter e hm
    have hm' : codec.marshal (anchorObject deps) = .error e := hm
    simp [Generate, hm']

/-- C5 witness: the serialization-failure branch under a failing codec, and
the anchor-file facts at the sample input under the concrete codec. -/
theorem claim_C5_witness :
    Generate failingCodec sampleParents [] =
      GenOutcome.failed ("failed to create kube-system/cluster-config-v1 configmap: " ++ "boom") ∧
    sampleObj = configMap "kube-system" "cluster-config-v1" [("install-config", "icdata")] ∧
    ({ filename := kubeSysConfigPath, data := sampleSData } : GoFile) ∈ sampleFiles := by
  obtain ⟨ha, hb⟩ := claim_C5_anchor_file
  obtain ⟨ho, hpth, d, hd, hmem⟩ :=
    ha defaultCodec sampleParents sampleAD sampleFiles sampleObj (by decide)
  refine ⟨hb failingCodec sampleParents [] "boom" rfl, ho, ?_⟩
  have hds : defaultCodec.marshal sampleObj = .ok sampleSData := by decide
  rw [hd] at hds
  injection hds with hds'
  rw [← hds']
  exact hmem

/-- C3: every file set produced by a successful `Generate`, and every file
set reconstructed by a `Load` that reports `found = true`, has strictly
lexicographically increasing paths (given the unique-path premise the spec
states for the merged set, and distinct storage paths for the load side). -/
theorem claim_C3_sorted_output :
    (∀ (codec : YamlCodec) (deps : Parents) (iter : List (String × String))
        (files : List GoFile) (obj : configurationObject),
      Generate codec deps iter = GenOutcome.generated files obj →
      (generatePathList deps iter).Nodup →
      StrictlySortedPaths files) ∧
    (∀ (codec : YamlCodec) (m : Manifests) (fl : List GoFile),
      (Load codec m (FetchResult.fetched fl)).found = true →
      NodupPaths fl →
      StrictlySortedPaths (Load codec m (FetchResult.fetched fl)).state.FileList) := by
  constructor
  · intro codec deps iter files obj hg hnd
    cases hm : codec.marshal (anchorObject deps) with
    | error e => simp [Generate, hm] at hg
    | ok d =>
      cases ha : assetDataList deps with
      | none => simp [Generate, hm, ha] at hg
      | some ad =>
        simp only [Generate, hm, ha] at hg
        obtain ⟨hfiles, hobj⟩ := (GenOutcome.generated.injEq _ _ _ _).mp hg
        subst hfiles
        apply sortFiles_strict
        unfold NodupPaths
        rw [generate_paths_eq]
        exact hnd
  · intro codec m fl hfound hnd
    by_cases h0 : fl.length = 0
    · simp [Load, h0] at hfound
    · cases hl : loadLoop codec fl none with
      | error e => simp [Load, h0, hl] at hfound
      | ok acc =>
        cases acc with
        | none => simp [Load, h0, hl] at hfound
        | some cfg =>
          simp only [Load, h0, hl, if_neg h0]
          exact sortFiles_strict hnd

/-- C3 witness: strict path sortedness of the sample `Generate` output and
of a sample successful `Load`. -/
theorem claim_C3_witness :
    StrictlySortedPaths sampleFiles ∧
    StrictlySortedPaths (Load defaultCodec sampleManifests
      (FetchResult.fetched [{ filename := kubeSysConfigPath, data := sampleSData }])).state.FileList := by
  obtain ⟨ha, hb⟩ := claim_C3_sorted_output
  exact ⟨ha defaultCodec sampleParents sampleAD sampleFiles sampleObj (by decide) (by decide),
    hb defaultCodec sampleManifests _ (by decide) (by decide)⟩

/-- C9: `Generate` is deterministic — its output does not depend on the
iteration order of the intermediate manifest map: any two traversal orders
of the same `assetData` association list yield identical outcomes, the
final sort alone fixing the order (given the spec's unique-path premise). -/
theorem claim_C9_deterministic :
    ∀ (codec : YamlCodec) (deps : Parents) (ad iter₁ iter₂ : List (String × String)),
      assetDataList deps = some ad →
      List.Perm iter₁ ad → List.Perm iter₂ ad →
      (generatePathList deps iter₁).Nodup →
      Generate codec deps iter₁ = Generate codec deps iter₂ := by
  intro codec deps ad it1 it2 had h1 h2 hnd
  cases hm : codec.marshal (anchorObject deps) with
  | error e => simp [Generate, hm]
  | ok d =>
    simp only [Generate, hm, had]
    have hgbk : List.Perm (generateBootKubeFiles it1) (generateBootKubeFiles it2) :=
      (h1.trans h2.symm).map _
    have hfull :
        List.Perm
          (({ filename := kubeSysConfigPath, data := d } : GoFile) ::
            (generateBootKubeFiles it1 ++ deps.ingressFiles ++ deps.dnsFiles ++
              deps.networkingFiles ++ deps.infrastructureFiles))
          (({ filename := kubeSysConfigPath, data := d } : GoFile) ::
            (generateBootKubeFiles it2 ++ deps.ingressFiles ++ deps.dnsFiles ++
              deps.networkingFiles ++ deps.infrastructureFiles)) :=
      ((((hgbk.append_right deps.ingressFiles).append_right deps.dnsFiles).append_right
        deps.networkingFiles).append_right deps.infrastructureFiles).cons _
    have hnodup : NodupPaths
        (({ filename := kubeSysConfigPath, data := d } : GoFile) ::
          (generateBootKubeFiles it1 ++ deps.ingressFiles ++ deps.dnsFiles ++
            deps.networkingFiles ++ deps.infrastructureFiles)) := by
      unfold NodupPaths
      rw [generate_paths_eq]
      exact hnd
    rw [sortFiles_eq_of_perm hfull hnodup]

/-- C9 witness: the sample `Generate` run gives the same outcome when the
manifest map is traversed in source order and in reversed order. -/
theorem claim_C9_witness :
    Generate defaultCodec sampleParents sampleAD =
      Generate defaultCodec sampleParents sampleAD.reverse :=
  claim_C9_deterministic defaultCodec sampleParents sampleAD sampleAD sampleAD.reverse
    (by decide) (List.Perm.refl _) (List.reverse_perm _) (by decide)

/-- C2: round-trip — if `Generate` succeeds and storage holds exactly its
files (in any enumeration order), then `Load` reports `found = true`, the
receiver gets exactly the generated file set (same paths and bytes), and
the anchor `configurationObject` equals the generated one (given the
spec's unique-path premise and the codec round-trip law on the anchor). -/
theorem claim_C2_roundtrip :
    ∀ (codec : YamlCodec) (deps : Parents) (iter : List (String × String))
      (sdata : String) (files : List GoFile) (obj : configurationObject)
      (fetched : List GoFile) (m : Manifests),
      codec.marshal (anchorObject deps) = .ok sdata →
      codec.unmarshal sdata = .ok (anchorObject deps) →
      Generate codec deps iter = GenOutcome.generated files obj →
      (generatePathList deps iter).Nodup →
      List.Perm fetched files →
      Load codec m (FetchResult.fetched fetched) =
        { state := { KubeSysConfig := some obj, FileList := files },
          found := true, err := none } := by
  intro codec deps iter sdata files obj fetched m hm hu hg hnd hf
  cases ha : assetDataList deps with
  | none => simp [Generate, hm, ha] at hg
  | some ad =>
    simp only [Generate, hm, ha] at hg
    obtain ⟨hfiles, hobj⟩ := (GenOutcome.generated.injEq _ _ _ _).mp hg
    subst hobj
    subst hfiles
    have hnodupF : NodupPaths
        (({ filename := kubeSysConfigPath, data := sdata } : GoFile) ::
          (generateBootKubeFiles iter ++ deps.ingressFiles ++ deps.dnsFiles ++
            deps.networkingFiles ++ deps.infrastructureFiles)) := by
      unfold NodupPaths
      rw [generate_paths_eq]
      exact hnd
    have hpermFF : List.Perm fetched
        (({ filename := kubeSysConfigPath, data := sdata } : GoFile) ::
          (generateBootKubeFiles iter ++ deps.ingressFiles ++ deps.dnsFiles ++
            deps.networkingFiles ++ deps.infrastructureFiles)) :=
      hf.trans (sortFiles_perm _)
    have hanchorF : ({ filename := kubeSysConfigPath, data := sdata } : GoFile) ∈
        (({ filename := kubeSysConfigPath, data := sdata } : GoFile) ::
          (generateBootKubeFiles iter ++ deps.ingressFiles ++ deps.dnsFiles ++
            deps.networkingFiles ++ deps.infrastructureFiles)) :=
      List.mem_cons_self _ _
    have hlen : ¬ fetched.length = 0 := by
      rw [hpermFF.length_eq]
      simp
    have hloop : loadLoop codec fetched none = .ok (some (anchorObject deps)) := by
      apply loadLoop_finds fetched none
      · intro f hfm hfn
        have hfF := hpermFF.mem_iff.mp hfm
        have heq : f = { filename := kubeSysConfigPath, data := sdata } :=
          List.inj_on_of_nodup_map hnodupF hfF hanchorF hfn
        rw [heq]
        exact hu
      · exact ⟨_, hpermFF.mem_iff.mpr hanchorF, rfl⟩
    have hsort : sortFiles fetched =
        sortFiles
          (({ filename := kubeSysConfigPath, data := sdata } : GoFile) ::
            (generateBootKubeFiles iter ++ deps.ingressFiles ++ deps.dnsFiles ++
              deps.networkingFiles ++ deps.infrastructureFiles)) :=
      sortFiles_eq_of_perm hpermFF (nodupPaths_of_perm hpermFF.symm hnodupF)
    simp [Load, hlen, hloop, hsort]

/-- C2 witness: writing the sample `Generate` output to storage (here
enumerated in reversed order) and loading it back reconstructs the same
sorted file set and the same anchor object, with `found = true`. -/
theorem claim_C2_witness :
    Load defaultCodec sampleManifests (FetchResult.fetched sampleFiles.reverse) =
      { state := { KubeSysConfig := some sampleObj, FileList := sampleFiles },
        found := true, err := none } :=
  claim_C2_roundtrip defaultCodec sampleParents sampleAD sampleSData sampleFiles sampleObj
    sampleFiles.reverse sampleManifests (by decide) (by decide) (by decide) (by decide)
    (List.reverse_perm _)

end Installer
